import Mathlib

/-!
Verification of the rcache cache engine (beardb repository).

This file shallowly embeds the cache's core data structures and operations,
translated from the Rust sources:

  * `src/rcache/src/bloom.rs`        — doorkeeper Bloom filter
  * `src/common/src/cm_sketch.rs`    — 4-bit Count-Min sketch
  * `src/rcache/src/policy.rs`       — TinyLFU, SampledLFU, DefaultPolicy
  * `src/rcache/src/metrics.rs`      — striped metric counters
  * `src/rcache/src/ttl.rs`          — expiration buckets
  * `src/rcache/src/sharded_map.rs`  — sharded store
  * `src/rcache/src/lib.rs`          — public cache API and worker loop

Modelling conventions:
  * Rust `u64` keys and hashes become `Nat` (no arithmetic overflow is
    reachable on them in the modelled operations: they are only hashed with
    XOR/AND masks and compared).
  * Rust `i64` costs and counters become `Int`; casts `as u64` are modelled
    with an explicit `% 2^64`.
  * `SystemTime` is modelled as whole seconds since the Unix epoch (`Nat`);
    the epoch itself (`0`) is the "no TTL" sentinel, exactly as
    `utils::is_time_zero` compares second counts.
  * `HashMap` is modelled as an association list; `insert` overwrites in
    place, `remove` deletes the unique binding.  Iteration order (used by
    `fill_sample`) is the list order.
  * The `while` loop in `DefaultPolicy::add` is modelled with explicit fuel;
    theorems about it quantify over the fuel and condition on termination.
  * Locks, channels and threads vanish in the sequential embedding: each
    operation is a pure state transformer, which matches the single-writer
    coordinator discipline the code establishes.
-/

set_option maxRecDepth 4000

/-- Association list lookup, the model of `HashMap::get`. -/
def alLookup {α : Type} : List (Nat × α) → Nat → Option α
  | [], _ => none
  | (k, v) :: t, key => if k = key then some v else alLookup t key

/-- Association list insert-or-overwrite, the model of `HashMap::insert`. -/
def alInsert {α : Type} : List (Nat × α) → Nat → α → List (Nat × α)
  | [], key, v => [(key, v)]
  | (k, w) :: t, key, v => if k = key then (key, v) :: t else (k, w) :: alInsert t key v

/-- Association list delete, the model of `HashMap::remove`. -/
def alErase {α : Type} : List (Nat × α) → Nat → List (Nat × α)
  | [], _ => []
  | (k, w) :: t, key => if k = key then t else (k, w) :: alErase t key

/-! ## Metrics (`metrics.rs`)

`Metrics` holds one `ArrayVec<AtomicU64, 256>` per metric kind;
`add(t, hash, delta)` does `slots[(hash % 25) * 10].fetch_add(delta)`
(wrapping 64-bit addition).  Each stripe array is modelled as a
256-element list of `Nat` values taken modulo `2^64`. -/

inductive MetricType where
  | hit | miss | keyAdd | keyUpdate | keyEvict | costAdd | costEvict
  | dropSets | rejectSets | dropGets | keepGets
deriving DecidableEq

structure Metrics where
  hit : List Nat
  miss : List Nat
  keyAdd : List Nat
  keyUpdate : List Nat
  keyEvict : List Nat
  costAdd : List Nat
  costEvict : List Nat
  dropSets : List Nat
  rejectSets : List Nat
  dropGets : List Nat
  keepGets : List Nat
deriving DecidableEq

/-- A fresh metrics block: 256 zeroed slots per kind. -/
def Metrics.new : Metrics :=
  { hit := List.replicate 256 0, miss := List.replicate 256 0
    keyAdd := List.replicate 256 0, keyUpdate := List.replicate 256 0
    keyEvict := List.replicate 256 0, costAdd := List.replicate 256 0
    costEvict := List.replicate 256 0, dropSets := List.replicate 256 0
    rejectSets := List.replicate 256 0, dropGets := List.replicate 256 0
    keepGets := List.replicate 256 0 }

/-- One striped `fetch_add`: slot `(hash % 25) * 10` grows by `delta`,
wrapping at `2^64` as `AtomicU64::fetch_add` does. -/
def Metrics.bump (slots : List Nat) (hash delta : Nat) : List Nat :=
  let idx := (hash % 25) * 10
  slots.set idx ((slots.getD idx 0 + delta) % 2 ^ 64)

/-- `Metrics::add` from `metrics.rs`. -/
def Metrics.add (m : Metrics) (t : MetricType) (hash delta : Nat) : Metrics :=
  match t with
  | .hit => { m with hit := Metrics.bump m.hit hash delta }
  | .miss => { m with miss := Metrics.bump m.miss hash delta }
  | .keyAdd => { m with keyAdd := Metrics.bump m.keyAdd hash delta }
  | .keyUpdate => { m with keyUpdate := Metrics.bump m.keyUpdate hash delta }
  | .keyEvict => { m with keyEvict := Metrics.bump m.keyEvict hash delta }
  | .costAdd => { m with costAdd := Metrics.bump m.costAdd hash delta }
  | .costEvict => { m with costEvict := Metrics.bump m.costEvict hash delta }
  | .dropSets => { m with dropSets := Metrics.bump m.dropSets hash delta }
  | .rejectSets => { m with rejectSets := Metrics.bump m.rejectSets hash delta }
  | .dropGets => { m with dropGets := Metrics.bump m.dropGets hash delta }
  | .keepGets => { m with keepGets := Metrics.bump m.keepGets hash delta }

/-- The policy and cache hold an `Option<Metrics>`; `mAdd` is the ubiquitous
`if let Some(metrics) = ... { metrics.add(...) }` pattern. -/
def mAdd (m : Option Metrics) (t : MetricType) (hash delta : Nat) : Option Metrics :=
  m.map (fun mm => mm.add t hash delta)

/-- Truncating `i64 as u64` cast used for the metric deltas. -/
def i64AsU64 (c : Int) : Nat := (c % (2 ^ 64 : Int)).toNat

/-! ## Count-Min sketch (`common/src/cm_sketch.rs`)

A row is a byte array; two 4-bit counters share a byte (low nibble = even
index, high nibble = odd index).  Bytes are `Nat` values below 256 (the
increment guard `v < 15` makes byte overflow unreachable). -/

/-- `Row::get`: read the 4-bit counter at index `n`. -/
def CMRow.get (r : List Nat) (n : Nat) : Nat :=
  (r.getD (n / 2) 0 >>> ((n % 2) * 4)) &&& 0x0f

/-- `Row::increment`: saturating increment of the 4-bit counter at `n`. -/
def CMRow.increment (r : List Nat) (n : Nat) : List Nat :=
  let i := n / 2
  let s := (n % 2) * 4
  let v := (r.getD i 0 >>> s) &&& 0x0f
  if v < 15 then r.set i (r.getD i 0 + (1 <<< s)) else r

/-- `Row::reset`: per-byte `(b >> 1) & 0x77`, i.e. conservative per-nibble
halving.  (Dead code in the Rust sources: `TinyLFU::reset` never calls it.) -/
def CMRow.reset (r : List Nat) : List Nat :=
  r.map (fun b => (b >>> 1) &&& 0x77)

/-- `Row::clear`: zero every byte. -/
def CMRow.clear (r : List Nat) : List Nat :=
  r.map (fun _ => 0)

/-- `CMSketch`: 4 rows, one random seed per row, `mask = width - 1` with
`width` the next power of two above `num_counters`. -/
structure CMSketch where
  rows : List (List Nat)
  seed : List Nat
  mask : Nat
deriving DecidableEq

/-- `CMSketch::increment`: bump row `i` at `(h ^ seed_i) & mask`. -/
def CMSketch.increment (s : CMSketch) (hashed : Nat) : CMSketch :=
  let rows := (s.rows.zip s.seed).map
    (fun rs => CMRow.increment rs.1 ((hashed ^^^ rs.2) &&& s.mask))
  { s with rows := rows }

/-- `CMSketch::estimate`: minimum of the four counters (init 255),
returned as `i64`. -/
def CMSketch.estimate (s : CMSketch) (hashed : Nat) : Int :=
  Int.ofNat ((s.rows.zip s.seed).foldl
    (fun min rs =>
      let val := CMRow.get rs.1 ((hashed ^^^ rs.2) &&& s.mask)
      if val < min then val else min) 255)

/-- `CMSketch::reset`: halve every row (never invoked by `TinyLFU`). -/
def CMSketch.reset (s : CMSketch) : CMSketch :=
  { s with rows := s.rows.map CMRow.reset }

/-- `CMSketch::clear`: zero every row. -/
def CMSketch.clear (s : CMSketch) : CMSketch :=
  { s with rows := s.rows.map CMRow.clear }

/-! ## Doorkeeper Bloom filter (`rcache/src/bloom.rs`)

Each of `set`, `check` and `check_and_set` loops `k_num` times but computes
the same `hash % bitmap_bits` offset in every iteration.  The loops are
modelled by recursion on the iteration count. -/

structure Bloom where
  bit_vec : List Bool
  bitmap_bits : Nat
  k_num : Nat
deriving DecidableEq

/-- Loop body of `Bloom::set`, iterated `k` times. -/
def Bloom.setLoop (bv : List Bool) (off : Nat) : Nat → List Bool
  | 0 => bv
  | k + 1 => Bloom.setLoop (bv.set off true) off k

/-- `Bloom::set`. -/
def Bloom.set (b : Bloom) (hash : Nat) : Bloom :=
  { b with bit_vec := Bloom.setLoop b.bit_vec (hash % b.bitmap_bits) b.k_num }

/-- Loop body of `Bloom::check`, iterated `k` times. -/
def Bloom.checkLoop (bv : List Bool) (off : Nat) : Nat → Bool
  | 0 => true
  | k + 1 => if bv.getD off false = false then false else Bloom.checkLoop bv off k

/-- `Bloom::check`. -/
def Bloom.check (b : Bloom) (hash : Nat) : Bool :=
  Bloom.checkLoop b.bit_vec (hash % b.bitmap_bits) b.k_num

/-- Loop body of `Bloom::check_and_set` with its `found` accumulator. -/
def Bloom.casLoop (bv : List Bool) (off : Nat) (found : Bool) :
    Nat → List Bool × Bool
  | 0 => (bv, found)
  | k + 1 =>
    if bv.getD off false = false then Bloom.casLoop (bv.set off true) off false k
    else Bloom.casLoop bv off found k

/-- `Bloom::check_and_set`: records the item and returns its previous state. -/
def Bloom.check_and_set (b : Bloom) (item : Nat) : Bloom × Bool :=
  let r := Bloom.casLoop b.bit_vec (item % b.bitmap_bits) true b.k_num
  ({ b with bit_vec := r.1 }, r.2)

/-- `Bloom::clear` (`BitVec::clear` sets every bit to false). -/
def Bloom.clear (b : Bloom) : Bloom :=
  { b with bit_vec := b.bit_vec.map (fun _ => false) }

/-- Spec-shaped one-bit filter: `set` touches the single bit
`hash % bitmap_bits`.  (Second definition for the refinement claim C10,
written from the spec's words, to be compared with the loop versions.) -/
def Bloom.oneBitSet (b : Bloom) (hash : Nat) : Bloom :=
  { b with bit_vec := b.bit_vec.set (hash % b.bitmap_bits) true }

/-- Spec-shaped one-bit filter: `check` reads the single bit. -/
def Bloom.oneBitCheck (b : Bloom) (hash : Nat) : Bool :=
  b.bit_vec.getD (hash % b.bitmap_bits) false

/-- Spec-shaped one-bit filter: `check_and_set` returns the prior state of
the single bit and sets it. -/
def Bloom.oneBitCheckAndSet (b : Bloom) (hash : Nat) : Bloom × Bool :=
  (b.oneBitSet hash, b.oneBitCheck hash)

/-! ## TinyLFU (`rcache/src/policy.rs`) -/

structure TinyLFU where
  freq : CMSketch
  door : Bloom
  incrs : Int
  reset_at : Int
deriving DecidableEq

/-- `TinyLFU::estimate`: sketch estimate plus one if the doorkeeper holds
the key.  (`&mut self` in Rust, but it mutates nothing.) -/
def TinyLFU.estimate (tl : TinyLFU) (key : Nat) : Int :=
  tl.freq.estimate key + (if tl.door.check key then 1 else 0)

/-- `TinyLFU::reset`: zero `incrs`, `freq.clear()` (NOT `freq.reset()`),
clear the doorkeeper. -/
def TinyLFU.reset (tl : TinyLFU) : TinyLFU :=
  { tl with incrs := 0, freq := tl.freq.clear, door := tl.door.clear }

/-- `TinyLFU::increment`: bump the sketch only when `check_and_set` reports
the key as already present, count the observation, reset on reaching
`reset_at`. -/
def TinyLFU.increment (tl : TinyLFU) (key : Nat) : TinyLFU :=
  let dc := tl.door.check_and_set key
  let freq1 := if dc.2 then tl.freq.increment key else tl.freq
  let incrs1 := tl.incrs + 1
  let tl1 : TinyLFU := { freq := freq1, door := dc.1, incrs := incrs1, reset_at := tl.reset_at }
  if incrs1 ≥ tl.reset_at then tl1.reset else tl1

/-! ## Sampled LFU (`rcache/src/policy.rs`)

The `Metrics` handle is shared (an `Arc` clone) between `SampledLFU` and
`DefaultPolicy` in Rust; the embedding threads the single metrics value
explicitly through the operations that touch it. -/

def LFU_SAMPLE : Nat := 5

structure SampledLFU where
  max_cost : Int
  used : Int
  key_costs : List (Nat × Int)
deriving DecidableEq

/-- `SampledLFU::room_left`. -/
def SampledLFU.room_left (s : SampledLFU) (cost : Int) : Int :=
  s.max_cost - (s.used + cost)

/-- `SampledLFU::fill_sample`: push pairs in map-iteration order until the
sample holds `LFU_SAMPLE` entries (or the map is exhausted). -/
def SampledLFU.fill_sample (s : SampledLFU) (input : List (Nat × Int)) :
    List (Nat × Int) :=
  if input.length ≥ LFU_SAMPLE then input
  else input ++ s.key_costs.take (LFU_SAMPLE - input.length)

/-- `SampledLFU::remove`: decrement `used`, delete the binding, bump the
`cost-evict` and `key-evict` metrics. -/
def SampledLFU.remove (s : SampledLFU) (m : Option Metrics) (key : Nat) :
    SampledLFU × Option Metrics × Option Int :=
  match alLookup s.key_costs key with
  | none => (s, m, none)
  | some cost =>
    let m1 := mAdd (mAdd m .costEvict key (i64AsU64 cost)) .keyEvict key 1
    ({ s with used := s.used - cost, key_costs := alErase s.key_costs key }, m1, some cost)

/-- `SampledLFU::add`: insert-or-overwrite, `used += cost`. -/
def SampledLFU.add (s : SampledLFU) (key : Nat) (cost : Int) : SampledLFU :=
  { s with key_costs := alInsert s.key_costs key cost, used := s.used + cost }

/-- `SampledLFU::update_if_has`: when the key is present, bump `cost-add` by
`(prev - cost) as u64`, set `used += cost - prev`, overwrite the cost. -/
def SampledLFU.update_if_has (s : SampledLFU) (m : Option Metrics)
    (key : Nat) (cost : Int) : SampledLFU × Option Metrics × Bool :=
  match alLookup s.key_costs key with
  | some prev =>
    let m1 := mAdd m .costAdd key (i64AsU64 (prev - cost))
    ({ s with used := s.used + cost - prev, key_costs := alInsert s.key_costs key cost },
      m1, true)
  | none => (s, m, false)

/-! ## Policy coordinator (`DefaultPolicy::add`) -/

/-- Victim descriptor (`Item` in `policy.rs`). -/
structure Item where
  key : Nat
  conflict : Nat
  cost : Int
deriving DecidableEq

def i64Max : Int := 9223372036854775807

/-- The minimum scan over the sample: start from
`(0, i64::MAX, 0, 0)` and keep the first strictly smaller estimate. -/
def findMinAux (adm : TinyLFU) :
    List (Nat × Int) → Nat → Nat × Int × Nat × Int → Nat × Int × Nat × Int
  | [], _, acc => acc
  | (k, c) :: t, i, (mk, mh, mi, mc) =>
    let hits := adm.estimate k
    if hits < mh then findMinAux adm t (i + 1) (k, hits, i, c)
    else findMinAux adm t (i + 1) (mk, mh, mi, mc)

/-- `(min_key, min_hits, min_id, min_cost)` over the sample. -/
def findMin (adm : TinyLFU) (sample : List (Nat × Int)) :
    Nat × Int × Nat × Int :=
  findMinAux adm sample 0 (0, i64Max, 0, 0)

/-- `sample[min_id] = sample[sample.len() - 1]; sample.truncate(len - 1)`. -/
def swapRemove (l : List (Nat × Int)) (i : Nat) : List (Nat × Int) :=
  (l.set i (l.getD (l.length - 1) (0, 0))).take (l.length - 1)

/-- The `while room < 0` eviction loop inside `DefaultPolicy::add`,
including the post-loop admission, modelled with explicit fuel.  Returns
`(evict, metrics, victims, accepted)` on termination. -/
def evictLoop (adm : TinyLFU) (incHits : Int) (key : Nat) (cost : Int) :
    Nat → SampledLFU → Option Metrics → List (Nat × Int) → List Item →
    Option (SampledLFU × Option Metrics × Option (List Item) × Bool)
  | 0, _, _, _, _ => none
  | fuel + 1, evict, m, sample, victims =>
    if evict.room_left cost < 0 then
      let sample1 := evict.fill_sample sample
      let fm := findMin adm sample1
      if incHits < fm.2.1 then
        some (evict, mAdd m .rejectSets key 1, some victims, false)
      else
        let rm := evict.remove m fm.1
        let sample2 := swapRemove sample1 fm.2.2.1
        let victims1 := victims ++ [⟨fm.1, 0, fm.2.2.2⟩]
        evictLoop adm incHits key cost fuel rm.1 rm.2.1 sample2 victims1
    else
      some (evict.add key cost, mAdd m .costAdd key (i64AsU64 cost), some victims, true)

/-- The mutable state behind `DefaultPolicy`: the `Inner` mutex contents
plus the shared metrics handle. -/
structure DefaultPolicy where
  adm : TinyLFU
  evict : SampledLFU
  metrics : Option Metrics
deriving DecidableEq

/-- `DefaultPolicy::add` (`policy.rs` lines 137-215): admission decision
with victim selection.  `fuel` bounds the eviction loop; `none` means the
fuel ran out before the loop terminated. -/
def DefaultPolicy.add (p : DefaultPolicy) (key : Nat) (cost : Int) (fuel : Nat) :
    Option (DefaultPolicy × Option (List Item) × Bool) :=
  if cost > p.evict.max_cost then some (p, none, false)
  else
    match p.evict.update_if_has p.metrics key cost with
    | (evict1, m1, true) => some ({ p with evict := evict1, metrics := m1 }, none, false)
    | (_, _, false) =>
      let room := p.evict.room_left cost
      if room ≥ 0 then
        let m2 := mAdd p.metrics .costAdd key (i64AsU64 cost)
        some ({ p with evict := p.evict.add key cost, metrics := m2 }, none, true)
      else
        let incHits := p.adm.estimate key
        match evictLoop p.adm incHits key cost fuel p.evict p.metrics [] [] with
        | none => none
        | some (evict1, m1, v, b) =>
          some ({ p with evict := evict1, metrics := m1 }, v, b)

/-- `Policy::remove` for `DefaultPolicy`. -/
def DefaultPolicy.remove (p : DefaultPolicy) (key : Nat) : DefaultPolicy :=
  let r := p.evict.remove p.metrics key
  { p with evict := r.1, metrics := r.2.1 }

/-- `Policy::update` for `DefaultPolicy`: a bare `update_if_has`. -/
def DefaultPolicy.update (p : DefaultPolicy) (key : Nat) (cost : Int) : DefaultPolicy :=
  let r := p.evict.update_if_has p.metrics key cost
  { p with evict := r.1, metrics := r.2.1 }

/-! ## Expiration buckets (`rcache/src/ttl.rs`)

Times are whole seconds since the Unix epoch; `utils::is_time_zero`
compares second counts, so the sentinel test is `t = 0`. -/

def BUCKET_DURATION_SECS : Nat := 5

/-- `storage_bucket`: `(secs / BUCKET_DURATION_SECS) + 1`. -/
def storage_bucket (t : Nat) : Nat := t / BUCKET_DURATION_SECS + 1

/-- `clean_bucket`: the most recent fully past bucket. -/
def clean_bucket (t : Nat) : Nat := storage_bucket t - 1

/-- `utils::is_time_zero`. -/
def is_time_zero (t : Nat) : Bool := t = 0

/-- The bucket index: bucket id → (key hash → conflict hash). -/
structure ExpirationMap where
  buckets : List (Nat × List (Nat × Nat))
deriving DecidableEq

/-- `ExpirationMap::add_`: `buckets.entry(storage_bucket(exp))
.and_modify(insert).or_insert(singleton)` — no sentinel check here. -/
def ExpirationMap.addInner (em : ExpirationMap) (key conflict exp : Nat) :
    ExpirationMap :=
  let bid := storage_bucket exp
  match alLookup em.buckets bid with
  | some bucket => ⟨alInsert em.buckets bid (alInsert bucket key conflict)⟩
  | none => ⟨alInsert em.buckets bid [(key, conflict)]⟩

/-- `ExpirationMap::remove_`: `buckets.entry(storage_bucket(exp))
.and_modify(remove)`. -/
def ExpirationMap.removeInner (em : ExpirationMap) (key exp : Nat) :
    ExpirationMap :=
  let bid := storage_bucket exp
  match alLookup em.buckets bid with
  | some bucket => ⟨alInsert em.buckets bid (alErase bucket key)⟩
  | none => em

/-- `ExpirationMap::add`: entries with the zero sentinel are not tracked. -/
def ExpirationMap.add (em : ExpirationMap) (key conflict exp : Nat) :
    ExpirationMap :=
  if is_time_zero exp then em else em.addInner key conflict exp

/-- `ExpirationMap::update`: remove from the old bucket, add to the new.
NOTE: unlike `add`, there is no `is_time_zero` guard on `new_exp`. -/
def ExpirationMap.update (em : ExpirationMap) (key conflict old_exp new_exp : Nat) :
    ExpirationMap :=
  (em.removeInner key old_exp).addInner key conflict new_exp

/-- `ExpirationMap::remove`. -/
def ExpirationMap.remove (em : ExpirationMap) (key exp : Nat) : ExpirationMap :=
  em.removeInner key exp

/-- Lookup of a (bucket, key) pair in the index. -/
def ExpirationMap.find (em : ExpirationMap) (bid key : Nat) : Option Nat :=
  (alLookup em.buckets bid).bind (fun bucket => alLookup bucket key)

/-! ## Entries and the sharded store (`lib.rs`, `sharded_map.rs`) -/

inductive EntryFlag where
  | new | delete | update
deriving DecidableEq

structure Entry (V : Type) where
  flag : EntryFlag
  key : Nat
  conflict : Nat
  value : Option V
  cost : Int
  exp : Nat
deriving DecidableEq

/-- One shard (`LockedMap`): its key → entry map plus the shared
expiration index it holds an `Arc` to. -/
structure LockedMap (V : Type) where
  data : List (Nat × Entry V)
  em : ExpirationMap
deriving DecidableEq

/-- `LockedMap::set`: when the key exists with a different nonzero incoming
conflict hash, do nothing; when the key is absent, register it in the
expiration index; then insert/overwrite. -/
def LockedMap.set {V : Type} (s : LockedMap V) (entry : Entry V) : LockedMap V :=
  match alLookup s.data entry.key with
  | some e =>
    if entry.conflict ≠ 0 ∧ entry.conflict ≠ e.conflict then s
    else { s with data := alInsert s.data entry.key entry }
  | none =>
    { data := alInsert s.data entry.key entry
      em := s.em.add entry.key entry.conflict entry.exp }

/-- `LockedMap::get`: conflict check, then the expiry check
`if now > entry.exp { return None }` — the zero sentinel is NOT
special-cased here. -/
def LockedMap.get {V : Type} (s : LockedMap V) (key conflict now : Nat) : Option V :=
  match alLookup s.data key with
  | none => none
  | some entry =>
    if conflict ≠ 0 ∧ conflict ≠ entry.conflict then none
    else if now > entry.exp then none
    else entry.value

/-- `LockedMap::expiration`: stored expiry or the zero sentinel. -/
def LockedMap.expiration {V : Type} (s : LockedMap V) (key : Nat) : Nat :=
  match alLookup s.data key with
  | some entry => entry.exp
  | none => 0

/-- `LockedMap::remove` (rcache crate version, returning `(u64, Option<V>)`). -/
def LockedMap.remove {V : Type} (s : LockedMap V) (key conflict : Nat) :
    LockedMap V × Nat × Option V :=
  match alLookup s.data key with
  | none => (s, 0, none)
  | some entry =>
    if conflict ≠ 0 ∧ conflict ≠ entry.conflict then (s, 0, none)
    else
      let em1 := if ¬ is_time_zero entry.exp then s.em.remove key entry.exp else s.em
      ({ data := alErase s.data key, em := em1 }, entry.conflict, entry.value)

/-- `LockedMap::update`: on a conflict match, move the expiration index
entry from the old expiry to the new one — with NO sentinel guard on this
path — and overwrite, returning the previous value. -/
def LockedMap.update {V : Type} (s : LockedMap V) (new_entry : Entry V) :
    LockedMap V × Option V :=
  match alLookup s.data new_entry.key with
  | none => (s, none)
  | some entry =>
    if new_entry.conflict ≠ 0 ∧ new_entry.conflict ≠ entry.conflict then (s, none)
    else
      let em1 := s.em.update new_entry.key new_entry.conflict entry.exp new_entry.exp
      ({ data := alInsert s.data new_entry.key new_entry, em := em1 }, entry.value)

def NUM_SHARDS : Nat := 256

/-- `ShardedMap`: 256 shards routed by `key % NUM_SHARDS`, all sharing one
expiration index. -/
structure ShardedMap (V : Type) where
  shards : List (List (Nat × Entry V))
  em : ExpirationMap
deriving DecidableEq

def ShardedMap.shardOf {V : Type} (sm : ShardedMap V) (key : Nat) : LockedMap V :=
  { data := sm.shards.getD (key % NUM_SHARDS) [], em := sm.em }

def ShardedMap.putShard {V : Type} (sm : ShardedMap V) (key : Nat)
    (shard : LockedMap V) : ShardedMap V :=
  { shards := sm.shards.set (key % NUM_SHARDS) shard.data, em := shard.em }

def ShardedMap.new (V : Type) : ShardedMap V :=
  { shards := List.replicate NUM_SHARDS [], em := ⟨[]⟩ }

def ShardedMap.get {V : Type} (sm : ShardedMap V) (key conflict now : Nat) : Option V :=
  (sm.shardOf key).get key conflict now

def ShardedMap.set {V : Type} (sm : ShardedMap V) (entry : Entry V) : ShardedMap V :=
  sm.putShard entry.key ((sm.shardOf entry.key).set entry)

def ShardedMap.remove {V : Type} (sm : ShardedMap V) (key conflict : Nat) :
    ShardedMap V × Nat × Option V :=
  let r := (sm.shardOf key).remove key conflict
  (sm.putShard key r.1, r.2)

def ShardedMap.update {V : Type} (sm : ShardedMap V) (entry : Entry V) :
    ShardedMap V × Option V :=
  let r := (sm.shardOf entry.key).update entry
  (sm.putShard entry.key r.1, r.2)

/-! ## Public API and coordinator worker (`lib.rs`)

The mutation queue is a list of pending entries; `sendOk` stands for the
channel actually accepting the send (`send(..).is_ok()`), which fails when
the consumer side is gone.  The lossy get-ring feedback and the broadcast
callbacks have no effect on the store, queue or return values and are
outside the model. -/

inductive CacheError where
  | sendError | keyDoesntExist | cacheClosed
deriving DecidableEq

instance {ε α : Type} [DecidableEq ε] [DecidableEq α] :
    DecidableEq (Except ε α) := fun a b =>
  match a, b with
  | .ok x, .ok y =>
    if h : x = y then isTrue (by rw [h])
    else isFalse (fun he => h (by injection he))
  | .error x, .error y =>
    if h : x = y then isTrue (by rw [h])
    else isFalse (fun he => h (by injection he))
  | .ok _, .error _ => isFalse (fun he => by injection he)
  | .error _, .ok _ => isFalse (fun he => by injection he)

/-- `Cache::get` (`lib.rs` lines 233-248): closed caches answer `None`
before touching anything; otherwise read the store and count hit/miss. -/
def Cache.get {V : Type} (closed : Bool) (sm : ShardedMap V) (m : Option Metrics)
    (key conflict now : Nat) : Option V × Option Metrics :=
  if closed then (none, m)
  else
    let value := sm.get key conflict now
    match value with
    | some v => (some v, mAdd m .hit key 1)
    | none => (none, mAdd m .miss key 1)

/-- `Cache::remove` (`lib.rs` lines 250-272): a closed cache returns
`Ok(())` immediately; otherwise remove from the store synchronously and
enqueue a `Delete` mutation. -/
def Cache.remove {V : Type} (closed : Bool) (sm : ShardedMap V)
    (q : List (Entry V)) (key conflict : Nat) (sendOk : Bool) :
    ShardedMap V × List (Entry V) × Except CacheError Unit :=
  if closed then (sm, q, Except.ok ())
  else
    let r := sm.remove key conflict
    let entry : Entry V :=
      { flag := .delete, key := key, conflict := conflict
        value := none, cost := 0, exp := 0 }
    if sendOk then (r.1, q ++ [entry], Except.ok ())
    else (r.1, q, Except.error CacheError.sendError)

/-- `Cache::insert_with_ttl` (`lib.rs` lines 274-318).  There is NO closed
check on this path.  `costV` is the caller cost function's value,
`entrySize` the `size_of::<Entry<V>>()` overhead.  Returns the mutated
store, the queue, the metrics, and the `bool` the method reports. -/
def Cache.insert_with_ttl {V : Type} (sm : ShardedMap V) (q : List (Entry V))
    (m : Option Metrics) (key conflict : Nat) (value : V) (costV : Int)
    (ignoreInternalCost : Bool) (entrySize : Int) (ttl now : Nat)
    (sendOk : Bool) : ShardedMap V × List (Entry V) × Option Metrics × Bool :=
  let cost := if ignoreInternalCost then costV else costV + entrySize
  let exp := if ttl > 0 then now + ttl else 0
  let entry : Entry V :=
    { flag := .new, key := key, conflict := conflict
      value := some value, cost := cost, exp := exp }
  let u := sm.update entry
  let entry1 := match u.2 with
    | some _ => { entry with flag := EntryFlag.update }
    | none => entry
  if sendOk then (u.1, q ++ [entry1], m, true)
  else if entry1.flag = EntryFlag.update then (u.1, q, m, true)
  else (u.1, q, mAdd m .dropSets key 1, false)

/-- One step of the coordinator worker (`process_items`, `lib.rs` lines
359-407): dispatch one dequeued mutation to the policy and the store.
The eviction-age tracking map and broadcasts are observable only through
callbacks and are outside the model. -/
def processItem {V : Type} (p : DefaultPolicy) (sm : ShardedMap V)
    (entry : Entry V) (fuel : Nat) : Option (DefaultPolicy × ShardedMap V) :=
  match entry.flag with
  | .new =>
    match DefaultPolicy.add p entry.key entry.cost fuel with
    | none => none
    | some (p1, victims, added) =>
      let smA := if added then sm.set entry else sm
      let mA := if added then mAdd p1.metrics .keyAdd entry.key 1 else p1.metrics
      let smB := match victims with
        | none => smA
        | some vs => vs.foldl (fun acc v => (ShardedMap.remove acc v.key 0).1) smA
      some ({ p1 with metrics := mA }, smB)
  | .delete =>
    let p1 := p.remove entry.key
    let r := sm.remove entry.key entry.conflict
    some (p1, r.1)
  | .update => some (p.update entry.key entry.cost, sm)

/-! ## Concrete fixtures

Small concrete states used by counterexamples and witnesses.  `tlTiny` is a
minimal TinyLFU (sketch width 2, zero seeds, an 8-bit doorkeeper) standing
in for a freshly built policy whose sketch is never consulted on the
evaluated paths. -/

def bloomTiny : Bloom :=
  { bit_vec := List.replicate 8 false, bitmap_bits := 8, k_num := 1 }

def tlTiny : TinyLFU :=
  { freq := { rows := [[0], [0], [0], [0]], seed := [0, 0, 0, 0], mask := 1 }
    door := bloomTiny, incrs := 0, reset_at := 100 }

def sumCosts : List (Nat × Int) → Int
  | [] => 0
  | (_, c) :: t => c + sumCosts t

/-- C2 fixture: `max_cost = 10`, empty policy. -/
def c2p0 : DefaultPolicy :=
  { adm := tlTiny, evict := { max_cost := 10, used := 0, key_costs := [] }
    metrics := none }

/-- C2 fixture: admit key 1 at cost 6, key 2 at cost 4 (both `New`), then
process an `Update` mutation raising key 1 to cost 10
(`process_items` → `policy.update` → `update_if_has`). -/
def c2afterOps : DefaultPolicy :=
  match DefaultPolicy.add c2p0 1 6 1 with
  | some (p1, _, _) =>
    (match DefaultPolicy.add p1 2 4 1 with
     | some (p2, _, _) => DefaultPolicy.update p2 1 10
     | none => p1)
  | none => c2p0

/-- C1 fixture: a no-TTL entry as `insert` builds it. -/
def c1entry : Entry Int :=
  { flag := .new, key := 1, conflict := 2, value := some 40, cost := 0, exp := 0 }

/-- C1 fixture: an admitting policy (`max_cost = 1024`). -/
def c1policy : DefaultPolicy :=
  { adm := tlTiny, evict := { max_cost := 1024, used := 0, key_costs := [] }
    metrics := none }

/-- C1 fixture: `insert_with_ttl(key 1, value 40, ttl 0)` on an empty cache
at `now = 1760000000` (cost function 0, internal cost ignored). -/
def c1afterInsert : ShardedMap Int × List (Entry Int) × Option Metrics × Bool :=
  Cache.insert_with_ttl (ShardedMap.new Int) [] none 1 2 40 0 true 0 0 1760000000 true

/-- C1 fixture: the coordinator processes the queued `New` mutation. -/
def c1afterProcess : Option (DefaultPolicy × ShardedMap Int) :=
  processItem c1policy c1afterInsert.1 c1entry 1

/-- C3 fixture: every row holds the counter value 3 for key 0
(sketch width 2, zero seeds). -/
def c3tl : TinyLFU :=
  { freq := { rows := [[3], [3], [3], [3]], seed := [0, 0, 0, 0], mask := 1 }
    door := bloomTiny, incrs := 1, reset_at := 2 }

/-- C4 fixture: a stored no-TTL entry for key 1 / conflict 2, value 5. -/
def c4entryOld : Entry Int :=
  { flag := .new, key := 1, conflict := 2, value := some 5, cost := 0, exp := 0 }

def c4store : ShardedMap Int := ShardedMap.set (ShardedMap.new Int) c4entryOld

/-- C4 fixture: `insert(key 1, value 7)` on the closed cache: the worker is
gone, so the channel send fails (`sendOk = false`); the synchronous
store-update path still runs. -/
def c4insert : ShardedMap Int × List (Entry Int) × Option Metrics × Bool :=
  Cache.insert_with_ttl c4store [] none 1 2 7 0 true 0 0 1760000000 false

/-- C8 fixture: a stored entry with the zero-sentinel expiry. -/
def c8entryOld : Entry Int :=
  { flag := .new, key := 7, conflict := 3, value := some 1, cost := 0, exp := 0 }

def c8shard : LockedMap Int := { data := [(7, c8entryOld)], em := ⟨[]⟩ }

/-- C8 fixture: overwriting insert for the same no-TTL key. -/
def c8new : Entry Int := { c8entryOld with value := some 2 }

/-- C6 witness fixture: doorkeeper bit for key 5 set, so
`estimate 5 = 1`. -/
def tlDoor5 : TinyLFU :=
  { freq := { rows := [[0], [0], [0], [0]], seed := [0, 0, 0, 0], mask := 1 }
    door := { bit_vec := [false, false, false, false, false, true, false, false]
              bitmap_bits := 8, k_num := 1 }
    incrs := 0, reset_at := 100 }

/-- C6 witness fixture: a full LFU holding key 5 at cost 10. -/
def evFull : SampledLFU := { max_cost := 10, used := 10, key_costs := [(5, 10)] }

/-- C7 witness fixtures: occupant with conflict 4; later writer with
conflict 9 for the same key. -/
def c7occupant : Entry Int :=
  { flag := .new, key := 1, conflict := 4, value := some 11, cost := 0, exp := 0 }

def c7shard : LockedMap Int := { data := [(1, c7occupant)], em := ⟨[]⟩ }

def c7incoming : Entry Int :=
  { flag := .new, key := 1, conflict := 9, value := some 12, cost := 0, exp := 0 }

/-- C7 witness fixture: a TTL'd entry for the absent-key branch. -/
def c7fresh : Entry Int :=
  { flag := .new, key := 2, conflict := 6, value := some 13, cost := 0, exp := 42 }

/-- C10 witness fixture: a two-hash-function doorkeeper. -/
def bloomK2 : Bloom :=
  { bit_vec := [true, false, true, false, false, false, false, false]
    bitmap_bits := 8, k_num := 2 }

/-- C5 witness fixture: policy with `max_cost = 10`. -/
def c5p : DefaultPolicy :=
  { adm := tlTiny, evict := { max_cost := 10, used := 0, key_costs := [] }
    metrics := none }

/-- C9 witness fixture: key 0 absent from the doorkeeper. -/
def c9tl : TinyLFU := tlTiny

/-! ## Helper lemmas -/

theorem alLookup_mem {α : Type} {l : List (Nat × α)} {k : Nat} {v : α}
    (h : alLookup l k = some v) : (k, v) ∈ l := by
  induction l with
  | nil => simp [alLookup] at h
  | cons hd t ih =>
    obtain ⟨k', v'⟩ := hd
    by_cases hk : k' = k
    · subst hk
      simp [alLookup] at h
      simp [h]
    · simp [alLookup, hk] at h
      exact List.mem_cons_of_mem _ (ih h)

theorem mem_alErase {α : Type} {l : List (Nat × α)} {k : Nat} {p : Nat × α}
    (h : p ∈ alErase l k) : p ∈ l := by
  induction l with
  | nil => simp [alErase] at h
  | cons hd t ih =>
    obtain ⟨k', v'⟩ := hd
    by_cases hk : k' = k
    · simp [alErase, hk] at h
      exact List.mem_cons_of_mem _ h
    · simp [alErase, hk] at h
      rcases h with h | h
      · simp [h]
      · exact List.mem_cons_of_mem _ (ih h)

theorem alLookup_alInsert_self {α : Type} (l : List (Nat × α)) (k : Nat) (v : α) :
    alLookup (alInsert l k v) k = some v := by
  induction l with
  | nil => simp [alInsert, alLookup]
  | cons hd t ih =>
    obtain ⟨k', v'⟩ := hd
    by_cases hk : k' = k
    · simp [alInsert, hk, alLookup]
    · simp [alInsert, hk, alLookup, ih]

/-- `(b >> 1) & 0x77` halves both nibbles of a byte: this is the
"conservative per-nibble halving" the spec describes, implemented by the
(unreachable) `Row::reset`. -/
theorem CMRow.reset_halves_nibbles :
    ∀ b < 256, ((b >>> 1) &&& 0x77) &&& 0x0f = (b &&& 0x0f) / 2 ∧
      (((b >>> 1) &&& 0x77) >>> 4) &&& 0x0f = ((b >>> 4) &&& 0x0f) / 2 := by
  decide

/-! ## Claim C5 -/

/-- C5: for every key `k` and cost `c` with `c > max_cost`, `policy.add(k, c)`
returns `(None, false)` and leaves the whole policy state (sketch, key→cost
map, `used` counter, metrics) unchanged. -/
theorem C5_cost_overflow_rejected (p : DefaultPolicy) (key : Nat) (cost : Int)
    (fuel : Nat) (h : cost > p.evict.max_cost) :
    DefaultPolicy.add p key cost fuel = some (p, none, false) := by
  unfold DefaultPolicy.add
  rw [if_pos h]

/-- C5 witness: cost 11 against `max_cost = 10` is rejected with the state
returned untouched. -/
theorem C5_cost_overflow_rejected_witness :
    DefaultPolicy.add c5p 1 11 1 = some (c5p, none, false) :=
  C5_cost_overflow_rejected c5p 1 11 1 (by decide)

/-! ## Claim C9 -/

/-- C9: as long as the observation does not trigger a reset
(`incrs + 1 < reset_at`), `TinyLFU::increment(h)` bumps the sketch exactly
when the doorkeeper's `check_and_set(h)` reports `h` as already present;
when `h` was absent, only the doorkeeper's bits change and the sketch is
untouched. -/
theorem C9_doorkeeper_gates_sketch (tl : TinyLFU) (key : Nat)
    (h : tl.incrs + 1 < tl.reset_at) :
    ((tl.door.check_and_set key).2 = true →
      TinyLFU.increment tl key =
        TinyLFU.mk (tl.freq.increment key) (tl.door.check_and_set key).1
          (tl.incrs + 1) tl.reset_at)
    ∧ ((tl.door.check_and_set key).2 = false →
      TinyLFU.increment tl key =
        TinyLFU.mk tl.freq (tl.door.check_and_set key).1
          (tl.incrs + 1) tl.reset_at) := by
  have hlt : ¬ (tl.incrs + 1 ≥ tl.reset_at) := not_le.mpr h
  constructor <;> intro hf <;>
    simp [TinyLFU.increment, hf, hlt]

/-- C9 witness: key 0 is absent from `c9tl`'s doorkeeper, so the increment
records it in the doorkeeper only and the sketch is unchanged. -/
theorem C9_doorkeeper_gates_sketch_witness :
    TinyLFU.increment c9tl 0 =
      TinyLFU.mk c9tl.freq (c9tl.door.check_and_set 0).1 (c9tl.incrs + 1)
        c9tl.reset_at :=
  (C9_doorkeeper_gates_sketch c9tl 0 (by decide)).2 (by decide)

/-! ## Claim C1 -/

/-- C1: the claim fails on the code.  A key inserted without a TTL carries
the epoch-zero sentinel (`insert_with_ttl` stores `exp = 0` for
`ttl = 0`); after the `New` mutation is admitted and set into the store,
`get` evaluates `now > entry.exp` with no sentinel carve-out, so at any
real `now` the lookup is a miss even though the entry is stored.  This
theorem evaluates the code on the failing input: insert key 1 / value 40
with no TTL at `now = 1760000000`; the queued mutation carries `exp = 0`,
the worker admits and stores it, yet `get` with the matching (or zero)
conflict hash answers `None` — the claim expects `Some 40`. -/
theorem C1_no_ttl_get_misses :
    c1afterInsert.2.1 = [c1entry] ∧ c1afterInsert.2.2.2 = true
    ∧ (c1afterProcess.map (fun ps => alLookup (ps.2.shardOf 1).data 1))
        = some (some c1entry)
    ∧ (c1afterProcess.map (fun ps => ShardedMap.get ps.2 1 2 1760000001))
        = some none
    ∧ (c1afterProcess.map (fun ps => ShardedMap.get ps.2 1 0 1760000001))
        = some none
    ∧ (c1afterProcess.map (fun ps => Cache.get false ps.2 none 1 2 1760000001))
        = some (none, none) := by
  decide

/-! ## Claim C3 -/

/-- C3: the claim fails on the code.  When `increment` brings `incrs` up to
`reset_at`, `incrs` does return to zero and the doorkeeper is cleared, but
`TinyLFU::reset` calls `freq.clear()` — zeroing every counter — instead of
`CMSketch::reset` (the conservative per-nibble halving, which is dead
code).  Failing input: `reset_at = 2`, `incrs = 1`, key 0's counters all 3;
one more increment zeroes them, where the claim requires `3 / 2 = 1`. -/
theorem C3_reset_clears_instead_of_halving :
    c3tl.freq.estimate 0 = 3
    ∧ (TinyLFU.increment c3tl 0).incrs = 0
    ∧ (TinyLFU.increment c3tl 0).door.bit_vec = List.replicate 8 false
    ∧ (TinyLFU.increment c3tl 0).freq.estimate 0 = 0
    ∧ (c3tl.freq.reset).estimate 0 = 1
    ∧ (TinyLFU.increment c3tl 0).freq ≠ c3tl.freq.reset := by
  decide

/-! ## Claim C4 -/

/-- C4: the claim fails on the code.  After the closed flag is set,
`get` does return a miss, but `remove` returns `Ok(())` — not
`Error::CacheClosed`, which is declared in `error.rs` and never
constructed — and `insert_with_ttl` never reads the closed flag at all: it
still overwrites the stored value through the synchronous store-update
path and reports `true`.  Evaluated here on a closed cache holding
key 1 = 5: `remove` yields `Ok(())`; `insert(key 1, value 7)` (channel
send failing, the worker having exited) mutates the store and returns
`true`. -/
theorem C4_closed_cache_behavior :
    Cache.get (V := Int) true c4store none 1 2 1760000000 = (none, none)
    ∧ Cache.remove (V := Int) true c4store [] 1 2 false = (c4store, [], Except.ok ())
    ∧ (Except.ok () : Except CacheError Unit) ≠ Except.error CacheError.cacheClosed
    ∧ c4insert.2.2.2 = true
    ∧ alLookup (c4insert.1.shardOf 1).data 1
        = some { flag := EntryFlag.new, key := 1, conflict := 2
                 value := some 7, cost := 0, exp := 0 }
    ∧ c4insert.1 ≠ c4store := by
  decide

/-! ## Claim C8 -/

/-- C8: the claim fails on the code.  `ExpirationMap::add` does respect the
zero sentinel, but `ExpirationMap::update` has no such guard: it
unconditionally adds `(key, conflict)` to the bucket of the new expiry, so
the store's overwrite path (`LockedMap::update`, invoked by `insert` on an
existing key) inserts a no-TTL key into bucket `storage_bucket 0 = 1`.
Failing input: overwrite of the stored no-TTL key 7 / conflict 3. -/
theorem C8_update_tracks_zero_expiry :
    ExpirationMap.add ⟨[]⟩ 7 3 0 = (⟨[]⟩ : ExpirationMap)
    ∧ ExpirationMap.remove ⟨[]⟩ 7 0 = (⟨[]⟩ : ExpirationMap)
    ∧ storage_bucket 0 = 1
    ∧ (ExpirationMap.update ⟨[]⟩ 7 3 0 0).find 1 7 = some 3
    ∧ ((LockedMap.update c8shard c8new).1.em).find 1 7 = some 3 := by
  decide

/-! ## Claim C10 -/

theorem getD_set_true : ∀ (bv : List Bool) (off : Nat), off < bv.length →
    (bv.set off true).getD off false = true
  | [], off, h => absurd h (by simp)
  | _ :: _, 0, _ => rfl
  | b :: t, off + 1, h => by
    have := getD_set_true t off (by simpa using h)
    simpa [List.set, List.getD] using this

theorem set_true_of_getD : ∀ (bv : List Bool) (off : Nat),
    bv.getD off false = true → bv.set off true = bv
  | [], _, h => by simp [List.getD] at h
  | b :: t, 0, h => by
    simp [List.getD] at h
    simp [List.set, h]
  | b :: t, off + 1, h => by
    have := set_true_of_getD t off (by simpa [List.getD] using h)
    simp [List.set, this]

theorem set_true_oob : ∀ (bv : List Bool) (off : Nat),
    bv.length ≤ off → bv.set off true = bv
  | [], _, _ => rfl
  | b :: t, 0, h => by simp at h
  | b :: t, off + 1, h => by
    have := set_true_oob t off (by simpa using h)
    simp [List.set, this]

theorem getD_oob : ∀ (bv : List Bool) (off : Nat),
    bv.length ≤ off → bv.getD off false = false
  | [], _, _ => rfl
  | b :: t, 0, h => by simp at h
  | b :: t, off + 1, h => by
    have := getD_oob t off (by simpa using h)
    simpa [List.getD] using this

theorem Bloom.setLoop_idem (off : Nat) :
    ∀ (k : Nat) (bv : List Bool),
      Bloom.setLoop (bv.set off true) off k = bv.set off true := by
  intro k
  induction k with
  | zero => intro bv; rfl
  | succ n ih =>
    intro bv
    calc Bloom.setLoop (bv.set off true) off (n + 1)
        = Bloom.setLoop ((bv.set off true).set off true) off n := rfl
      _ = Bloom.setLoop (bv.set off true) off n := by rw [List.set_set]
      _ = bv.set off true := ih bv

theorem Bloom.setLoop_succ (bv : List Bool) (off j : Nat) :
    Bloom.setLoop bv off (j + 1) = bv.set off true := by
  have h1 : Bloom.setLoop bv off (j + 1) = Bloom.setLoop (bv.set off true) off j := rfl
  rw [h1, Bloom.setLoop_idem]

theorem Bloom.checkLoop_of_true {bv : List Bool} {off : Nat}
    (h : bv.getD off false = true) : ∀ k, Bloom.checkLoop bv off k = true := by
  have h2 : bv[off]?.getD false = true := by simpa using h
  intro k
  induction k with
  | zero => rfl
  | succ n ih => simp [Bloom.checkLoop, h2, ih]

theorem Bloom.checkLoop_succ (bv : List Bool) (off j : Nat) :
    Bloom.checkLoop bv off (j + 1) = bv.getD off false := by
  cases hbit : bv.getD off false with
  | false =>
    have h2 : bv[off]?.getD false = false := by simpa using hbit
    simp [Bloom.checkLoop, h2]
  | true =>
    have h2 : bv[off]?.getD false = true := by simpa using hbit
    simp [Bloom.checkLoop, h2, Bloom.checkLoop_of_true hbit]

theorem Bloom.casLoop_of_true {bv : List Bool} {off : Nat}
    (h : bv.getD off false = true) :
    ∀ (k : Nat) (found : Bool), Bloom.casLoop bv off found k = (bv, found) := by
  have h2 : bv[off]?.getD false = true := by simpa using h
  intro k
  induction k with
  | zero => intro found; rfl
  | succ n ih => intro found; simp [Bloom.casLoop, h2, ih]

theorem Bloom.casLoop_oob {bv : List Bool} {off : Nat}
    (h : bv.length ≤ off) :
    ∀ k, Bloom.casLoop bv off false k = (bv, false) := by
  have h2 : bv[off]?.getD false = false := by simpa using getD_oob bv off h
  intro k
  induction k with
  | zero => rfl
  | succ n ih =>
    simp [Bloom.casLoop, h2, set_true_oob bv off h, ih]

theorem Bloom.casLoop_succ (bv : List Bool) (off j : Nat) :
    Bloom.casLoop bv off true (j + 1) = (bv.set off true, bv.getD off false) := by
  cases hbit : bv.getD off false with
  | false =>
    have h2 : bv[off]?.getD false = false := by simpa using hbit
    by_cases hlen : off < bv.length
    · simp [Bloom.casLoop, h2, Bloom.casLoop_of_true (getD_set_true bv off hlen)]
    · have hle : bv.length ≤ off := le_of_not_lt hlen
      simp [Bloom.casLoop, h2, set_true_oob bv off hle, Bloom.casLoop_oob hle]
  | true =>
    have h2 : bv[off]?.getD false = true := by simpa using hbit
    simp [Bloom.casLoop, h2, Bloom.casLoop_of_true hbit, set_true_of_getD bv off hbit]

/-- C10: every iteration of the `k_num` loops in the doorkeeper Bloom's
`set`, `check` and `check_and_set` recomputes the same offset
`hash % bitmap_bits`, so for each `k_num ≥ 1` (every constructed filter
satisfies this: `optimal_k_num` clamps with `max(_, 1)`) the three
operations coincide with a one-hash-function filter over a single bit:
`set` sets that bit, `check` returns it, and `check_and_set` returns its
prior state while setting it. -/
theorem C10_one_bit_filter (b : Bloom) (hash : Nat) (h : 1 ≤ b.k_num) :
    b.set hash = b.oneBitSet hash
    ∧ b.check hash = b.oneBitCheck hash
    ∧ b.check_and_set hash = b.oneBitCheckAndSet hash := by
  obtain ⟨j, hj⟩ : ∃ j, b.k_num = j + 1 := ⟨b.k_num - 1, by omega⟩
  refine ⟨?_, ?_, ?_⟩
  · unfold Bloom.set Bloom.oneBitSet
    rw [hj, Bloom.setLoop_succ]
  · unfold Bloom.check Bloom.oneBitCheck
    rw [hj, Bloom.checkLoop_succ]
  · unfold Bloom.check_and_set Bloom.oneBitCheckAndSet Bloom.oneBitSet Bloom.oneBitCheck
    rw [hj, Bloom.casLoop_succ]

/-- C10 witness: a filter with `k_num = 2` behaves as the one-bit filter on
hash 10 (offset `10 % 8 = 2`, a set bit). -/
theorem C10_one_bit_filter_witness :
    Bloom.set bloomK2 10 = Bloom.oneBitSet bloomK2 10
    ∧ Bloom.check bloomK2 10 = Bloom.oneBitCheck bloomK2 10
    ∧ Bloom.check_and_set bloomK2 10 = Bloom.oneBitCheckAndSet bloomK2 10 :=
  C10_one_bit_filter bloomK2 10 (by decide)

/-! ## Claim C7 -/

theorem ExpirationMap.find_addInner (em : ExpirationMap) (key conflict exp : Nat) :
    (em.addInner key conflict exp).find (storage_bucket exp) key = some conflict := by
  unfold ExpirationMap.addInner ExpirationMap.find
  simp only []
  cases h : alLookup em.buckets (storage_bucket exp) with
  | none => simp [alLookup_alInsert_self, alLookup]
  | some bucket => simp [alLookup_alInsert_self]

/-- C7: `LockedMap::set` on a shard already holding key `k` with conflict
hash `c0` ignores an incoming entry whose conflict hash is nonzero and
differs from `c0`: both the shard map and the expiration index are left
untouched.  When `k` is absent, `set` first feeds `(k, conflict, exp)` to
the expiration index's `add` and then inserts; for a TTL'd entry
(`exp ≠ 0`) the pair is afterwards present in the bucket of its expiry. -/
theorem C7_set_collision_frame {V : Type} (s : LockedMap V) (entry : Entry V) :
    (∀ e, alLookup s.data entry.key = some e → entry.conflict ≠ 0 →
      entry.conflict ≠ e.conflict → LockedMap.set s entry = s)
    ∧ (alLookup s.data entry.key = none →
      LockedMap.set s entry =
        LockedMap.mk (alInsert s.data entry.key entry)
          (s.em.add entry.key entry.conflict entry.exp)
      ∧ (entry.exp ≠ 0 →
        (LockedMap.set s entry).em.find (storage_bucket entry.exp) entry.key
          = some entry.conflict)) := by
  constructor
  · intro e hsome hnz hne
    unfold LockedMap.set
    rw [hsome]
    simp [hnz, hne]
  · intro hnone
    have hset : LockedMap.set s entry =
        LockedMap.mk (alInsert s.data entry.key entry)
          (s.em.add entry.key entry.conflict entry.exp) := by
      unfold LockedMap.set
      rw [hnone]
    refine ⟨hset, fun hexp => ?_⟩
    rw [hset]
    show (s.em.add entry.key entry.conflict entry.exp).find
      (storage_bucket entry.exp) entry.key = some entry.conflict
    unfold ExpirationMap.add
    rw [if_neg (by simpa [is_time_zero] using hexp)]
    exact ExpirationMap.find_addInner s.em entry.key entry.conflict entry.exp

/-- C7 witness: the collision branch (occupant conflict 4 versus incoming
conflict 9 keeps the state) and the absent-key branch (a TTL'd entry lands
in bucket `storage_bucket 42 = 9`), both at concrete inputs. -/
theorem C7_set_collision_frame_witness :
    LockedMap.set c7shard c7incoming = c7shard
    ∧ (LockedMap.set c7shard c7fresh).em.find (storage_bucket 42) 2 = some 6 :=
  ⟨(C7_set_collision_frame c7shard c7incoming).1 c7occupant (by decide)
      (by decide) (by decide),
    ((C7_set_collision_frame c7shard c7fresh).2 (by decide)).2 (by decide)⟩

/-! ## Claim C6 -/

/-- C6: at any iteration of the eviction loop in `DefaultPolicy::add`
where the incoming key's TinyLFU estimate is strictly below the minimum
estimate over the (re)filled sample, the call returns
`(Some victims, false)` with exactly the victims evicted so far, bumps the
`reject-sets` metric for the incoming key, and leaves the Sampled LFU as
it stands — in particular the incoming key, absent before, is not
inserted. -/
theorem C6_eviction_loop_reject (adm : TinyLFU) (incHits : Int) (key : Nat)
    (cost : Int) (fuel : Nat) (evict : SampledLFU) (m : Option Metrics)
    (sample : List (Nat × Int)) (victims : List Item)
    (hroom : evict.room_left cost < 0)
    (hrej : incHits < (findMin adm (evict.fill_sample sample)).2.1)
    (habs : alLookup evict.key_costs key = none) :
    evictLoop adm incHits key cost (fuel + 1) evict m sample victims
      = some (evict, mAdd m .rejectSets key 1, some victims, false)
    ∧ alLookup evict.key_costs key = none := by
  refine ⟨?_, habs⟩
  simp only [evictLoop]
  rw [if_pos hroom, if_pos hrej]

/-- C6 witness: `incHits = 0` for incoming key 9 against a sample whose
minimum estimate is 1 (key 5 sits in the doorkeeper): the loop rejects,
bumps `reject-sets`, reports no victims and leaves key 9 untracked. -/
theorem C6_eviction_loop_reject_witness :
    evictLoop tlDoor5 0 9 5 1 evFull (some Metrics.new) [] []
      = some (evFull, some (Metrics.new.add .rejectSets 9 1), some [], false)
    ∧ alLookup evFull.key_costs 9 = none :=
  C6_eviction_loop_reject tlDoor5 0 9 5 0 evFull (some Metrics.new) [] []
    (by decide) (by decide) (by decide)

/-! ## Claim C2 -/

/-- C2 counterexample: with `max_cost = 10`, admit key 1 at cost 6 and
key 2 at cost 4 (the queue now drained, `used = 10 = Σ cost`), then process
one more mutation: an `Update` raising key 1's cost to 10
(`process_items` → `policy.update` → `update_if_has`).  `update_if_has`
adds `cost - prev` to `used` and evicts nothing, so afterwards
`used = Σ cost = 14 > max_cost = 10`: the claimed bound — and specifically
its "Update preserves the bound" part — is false. -/
theorem C2_bounded_cost_counterexample :
    c2afterOps.evict.used = 14
    ∧ sumCosts c2afterOps.evict.key_costs = 14
    ∧ c2afterOps.evict.max_cost = 10
    ∧ ¬ (c2afterOps.evict.used ≤ c2afterOps.evict.max_cost)
    ∧ ¬ (sumCosts c2afterOps.evict.key_costs ≤ c2afterOps.evict.max_cost) := by
  decide

theorem SampledLFU.remove_invariant (s : SampledLFU) (m : Option Metrics)
    (key : Nat) (hused : s.used ≤ s.max_cost)
    (hpos : ∀ p ∈ s.key_costs, 0 ≤ p.2) :
    (s.remove m key).1.used ≤ (s.remove m key).1.max_cost
    ∧ ∀ p ∈ (s.remove m key).1.key_costs, 0 ≤ p.2 := by
  unfold SampledLFU.remove
  cases h : alLookup s.key_costs key with
  | none => exact ⟨hused, hpos⟩
  | some cost =>
    have hc : (0 : Int) ≤ cost := hpos _ (alLookup_mem h)
    refine ⟨?_, ?_⟩
    · show s.used - cost ≤ s.max_cost
      omega
    · intro p hp
      exact hpos p (mem_alErase hp)

theorem SampledLFU.update_if_has_absent (s : SampledLFU) (m : Option Metrics)
    (key : Nat) (cost : Int) (h : alLookup s.key_costs key = none) :
    s.update_if_has m key cost = (s, m, false) := by
  unfold SampledLFU.update_if_has
  rw [h]

theorem evictLoop_preserves_bound (adm : TinyLFU) (incHits : Int) (key : Nat)
    (cost : Int) :
    ∀ (fuel : Nat) (evict : SampledLFU) (m : Option Metrics)
      (sample : List (Nat × Int)) (victims : List Item) (e1 : SampledLFU)
      (m1 : Option Metrics) (v : Option (List Item)) (b : Bool),
      evict.used ≤ evict.max_cost →
      (∀ p ∈ evict.key_costs, 0 ≤ p.2) →
      evictLoop adm incHits key cost fuel evict m sample victims
        = some (e1, m1, v, b) →
      e1.used ≤ e1.max_cost := by
  intro fuel
  induction fuel with
  | zero =>
    intro evict m sample victims e1 m1 v b _ _ hrun
    simp [evictLoop] at hrun
  | succ n ih =>
    intro evict m sample victims e1 m1 v b hused hpos hrun
    simp only [evictLoop] at hrun
    by_cases hroom : evict.room_left cost < 0
    · rw [if_pos hroom] at hrun
      by_cases hrej : incHits < (findMin adm (evict.fill_sample sample)).2.1
      · rw [if_pos hrej] at hrun
        simp only [Option.some.injEq, Prod.mk.injEq] at hrun
        obtain ⟨h1, -, -, -⟩ := hrun
        rw [← h1]
        exact hused
      · rw [if_neg hrej] at hrun
        have hinv := SampledLFU.remove_invariant evict m
          (findMin adm (evict.fill_sample sample)).1 hused hpos
        exact ih _ _ _ _ _ _ _ _ hinv.1 hinv.2 hrun
    · rw [if_neg hroom] at hrun
      simp only [Option.some.injEq, Prod.mk.injEq] at hrun
      obtain ⟨h1, -, -, -⟩ := hrun
      rw [← h1]
      have hge : (0 : Int) ≤ evict.room_left cost := not_lt.mp hroom
      simp only [SampledLFU.room_left] at hge
      show evict.used + cost ≤ evict.max_cost
      omega

/-- C2 (amended): the bound survives every path that does not rewrite an
existing key's cost: processing a `New` mutation — `policy.add` on a key
absent from the key→cost map — preserves `used ≤ max_cost` whether it
rejects the oversized item, admits into free room, evicts victims, or
rejects against the sample (given the stored costs are nonnegative, as
they are for entries admitted through `add`).  The original claim's
Update part is refuted by the counterexample above: `update_if_has`
raises `used` by `cost - prev` with no eviction, exceeding `max_cost`. -/
theorem C2_bounded_cost_amended (p : DefaultPolicy) (key : Nat) (cost : Int)
    (fuel : Nat) (p1 : DefaultPolicy) (v : Option (List Item)) (b : Bool)
    (habs : alLookup p.evict.key_costs key = none)
    (hused : p.evict.used ≤ p.evict.max_cost)
    (hpos : ∀ q ∈ p.evict.key_costs, 0 ≤ q.2)
    (hrun : DefaultPolicy.add p key cost fuel = some (p1, v, b)) :
    p1.evict.used ≤ p1.evict.max_cost := by
  unfold DefaultPolicy.add at hrun
  by_cases hc : cost > p.evict.max_cost
  · rw [if_pos hc] at hrun
    simp only [Option.some.injEq, Prod.mk.injEq] at hrun
    obtain ⟨h1, -, -⟩ := hrun
    rw [← h1]
    exact hused
  · rw [if_neg hc] at hrun
    rw [SampledLFU.update_if_has_absent p.evict p.metrics key cost habs] at hrun
    simp only [] at hrun
    by_cases hroom : p.evict.room_left cost ≥ 0
    · rw [if_pos hroom] at hrun
      simp only [Option.some.injEq, Prod.mk.injEq] at hrun
      obtain ⟨h1, -, -⟩ := hrun
      rw [← h1]
      simp only [SampledLFU.room_left] at hroom
      show p.evict.used + cost ≤ p.evict.max_cost
      omega
    · rw [if_neg hroom] at hrun
      cases hloop : evictLoop p.adm (p.adm.estimate key) key cost fuel
          p.evict p.metrics [] [] with
      | none => rw [hloop] at hrun; simp at hrun
      | some r =>
        obtain ⟨e1, m1, vv, bb⟩ := r
        rw [hloop] at hrun
        simp only [Option.some.injEq, Prod.mk.injEq] at hrun
        obtain ⟨h1, -, -⟩ := hrun
        rw [← h1]
        exact evictLoop_preserves_bound p.adm (p.adm.estimate key) key cost
          fuel p.evict p.metrics [] [] e1 m1 vv bb hused hpos hloop

/-- C2 witness for the amended theorem: key 3 / cost 4 admitted into an
empty policy with `max_cost = 10` keeps `used = 4 ≤ 10`. -/
theorem C2_bounded_cost_amended_witness :
    (DefaultPolicy.mk tlTiny (SampledLFU.mk 10 4 [(3, 4)]) none).evict.used
      ≤ (DefaultPolicy.mk tlTiny (SampledLFU.mk 10 4 [(3, 4)]) none).evict.max_cost :=
  C2_bounded_cost_amended c5p 3 4 1
    (DefaultPolicy.mk tlTiny (SampledLFU.mk 10 4 [(3, 4)]) none) none true
    (by decide) (by decide) (by decide) (by decide)
